import Mathlib

/-!
Shallow embedding of the OKX DEX SDK EVM swap/approval execution engine
(`src/okx/api/swap/evm/evm-swap.ts` and `src/okx/api/swap/evm/evm-approve.ts`).

External collaborators (the JSON-RPC provider, the signing wallet, the ERC-20
contract, and the OKX HTTP API) are modelled as per-attempt oracles: each
attempt of the retry loop reads its environment from an `AttemptEnv`
(respectively `ApproveAttemptEnv`), whose fields record the responses the
external world gives during that attempt.  Monetary quantities are `BigNumber`
values in the source, i.e. arbitrary-precision non-negative integers; they are
modelled as `Nat`, with `BigNumber.mul`/`BigNumber.div` as `Nat` multiplication
and floor division.  Fallible calls return `Except JsError _`, mirroring thrown
JavaScript errors (with their `code` property used for terminal
classification).  Waits (`setTimeout`) are modelled as explicit clock
increments in the confirmation poller.
-/

/-- The `error.code` values the swap retry loop inspects
(`INSUFFICIENT_FUNDS`, `NONCE_EXPIRED`); every other code is `other`. -/
inductive ErrCode
  | insufficientFunds
  | nonceExpired
  | other
deriving DecidableEq

/-- A thrown JavaScript error: its `code` property and its message. -/
structure JsError where
  code : ErrCode
  msg : String
deriving DecidableEq

/-- Result of `provider.getFeeData()`: the two fields read by the source;
either may be `null` (`none`). -/
structure FeeData where
  maxFeePerGas : Option Nat
  maxPriorityFeePerGas : Option Nat
deriving DecidableEq

/-- A transaction receipt as used by the source: block-inclusion metadata. -/
structure Receipt where
  transactionHash : String
  blockNumber : Nat
deriving DecidableEq

/-- What the provider answers during one poll iteration:
`getTransactionReceipt` (a receipt or `null`) and `getTransaction`
(whether the transaction is still known to the pending pool). -/
structure PollStep where
  receipt : Option Receipt
  pendingKnown : Bool
deriving DecidableEq

/-- The `tx` object from the quote payload (`quoteData.tx`):
destination, call data, optional value and optional gas estimate. -/
structure TxData where
  data : String
  toAddress : String
  value : Option Nat
  gas : Option Nat
deriving DecidableEq

/-- The transaction request assembled by `executeEvmTransaction` and passed
to `wallet.sendTransaction`. -/
structure TxRequest where
  data : String
  toAddress : String
  value : Nat
  nonce : Nat
  gasLimit : Nat
  maxFeePerGas : Nat
  maxPriorityFeePerGas : Nat
deriving DecidableEq

/-- The fields of `ChainConfig` the execution engine reads: the explorer base
URL and the optional `maxRetries` setting. -/
structure ChainConfig where
  explorer : String
  maxRetries : Option Nat
deriving DecidableEq

/-- `this.networkConfig.maxRetries || 3`: JavaScript `||` replaces a missing
or zero (falsy) setting by the default 3. -/
def effectiveMaxRetries : Option Nat → Nat
  | none => 3
  | some 0 => 3
  | some (k + 1) => k + 1

/-- `gasMultiplier` in `executeEvmTransaction` (`BigNumber.from(110)`). -/
def SWAP_GAS_MULTIPLIER : Nat := 110

/-- `DEFAULT_GAS_MULTIPLIER` in the approval executor (`BigNumber.from(150)`). -/
def APPROVE_GAS_MULTIPLIER : Nat := 150

/-- Fallback priority fee `BigNumber.from("3000000000")` (3 gwei). -/
def FALLBACK_PRIORITY_FEE : Nat := 3000000000

/-- The fixed delay before the first receipt poll (`setTimeout(..., 5000)`). -/
def initialConfirmDelay : Nat := 5000

/-- The fixed delay between receipt polls (`setTimeout(..., 2000)`). -/
def pollIntervalMs : Nat := 2000

/-- `maxAttempts = 30` in the confirmation poll loop. -/
def maxPollAttempts : Nat := 30

/-- `feeData.maxFeePerGas || BigNumber.from(0)`. -/
def feeBase (fd : FeeData) : Nat := fd.maxFeePerGas.getD 0

/-- `feeData.maxPriorityFeePerGas || BigNumber.from("3000000000")`. -/
def feePriority (fd : FeeData) : Nat := fd.maxPriorityFeePerGas.getD FALLBACK_PRIORITY_FEE

/-- The transaction object built by `executeEvmTransaction` from the quote
`tx`, the fetched transaction count, the current `retryCount`, and the fetched
fee data.  `value` is `tx.value`-or-zero; gas limit and both fee fields are
multiplied by the constant multiplier 110 and floor-divided by 100. -/
def buildSwapTransaction (tx : TxData) (nonce retryCount : Nat) (fd : FeeData) : TxRequest :=
  { data := tx.data
    toAddress := tx.toAddress
    value := tx.value.getD 0
    nonce := nonce + retryCount
    gasLimit := tx.gas.getD 0 * SWAP_GAS_MULTIPLIER / 100
    maxFeePerGas := feeBase fd * SWAP_GAS_MULTIPLIER / 100
    maxPriorityFeePerGas := feePriority fd * SWAP_GAS_MULTIPLIER / 100 }

/-- Error message constants of `executeEvmTransaction`. -/
def droppedMsg : String := "Transaction dropped - check network and gas prices"

def timeoutMsg : String := "Transaction confirmation timed out - check explorer for status"

def insufficientFundsMsg : String := "Insufficient funds for transaction"

def nonceExpiredMsg : String := "Transaction nonce expired"

def maxRetriesMsg : String := "Max retries exceeded"

def approveMaxRetriesMsg : String := "Max retries exceeded for approval transaction"

def alreadyApprovedMsg : String := "Token already approved for the requested amount"

def notSupportedMsg : String := "Swap execution not supported in approval executor"

/-- The confirmation poll loop of `executeEvmTransaction`, with an explicit
clock.  `now` is the time elapsed since submission at the moment of the
current poll; `attempts` is the loop counter; `fuel` is
`maxAttempts - attempts`.  Each unresolved poll waits `pollIntervalMs` before
the next one.  The returned list records each poll's time and observation;
the returned `Except` is the loop's outcome: the receipt when one appears,
the dropped error when the transaction leaves the pending pool, and the
timeout error when the attempt ceiling is reached. -/
def pollLoopT (polls : Nat → PollStep) : Nat → Nat → Nat →
    List (Nat × PollStep) × Except JsError Receipt
  | _now, _attempts, 0 => ([], .error ⟨.other, timeoutMsg⟩)
  | now, attempts, fuel + 1 =>
    match (polls attempts).receipt with
    | some r => ([(now, polls attempts)], .ok r)
    | none =>
      if (polls attempts).pendingKnown then
        let rest := pollLoopT polls (now + pollIntervalMs) (attempts + 1) fuel
        ((now, polls attempts) :: rest.fst, rest.snd)
      else ([(now, polls attempts)], .error ⟨.other, droppedMsg⟩)

/-- The external world as seen by one attempt of the swap retry loop:
`provider.getTransactionCount`, `provider.getFeeData`,
`wallet.sendTransaction` (keyed by the submitted request, returning the
transaction hash), and the provider's poll answers (keyed by the queried
hash and the poll index). -/
structure AttemptEnv where
  txCount : Except JsError Nat
  feeData : Except JsError FeeData
  send : TxRequest → Except JsError String
  polls : String → Nat → PollStep

/-- Observable record of one attempt of the swap retry loop: the attempt
index, the built transaction request (if the attempt got that far), whether
`sendTransaction` was invoked, the hash it returned (if it succeeded), and
the attempt's outcome. -/
structure SwapTrace where
  idx : Nat
  builtTx : Option TxRequest
  submitted : Bool
  sentHash : Option String
  result : Except JsError Receipt

/-- One iteration of the `try` block of `executeEvmTransaction`: fetch the
transaction count, fetch fee data, build the transaction, submit it, then
run the confirmation poll loop (first poll `initialConfirmDelay` after
submission, `maxPollAttempts` polls).  Any thrown error becomes the
attempt's `.error` outcome. -/
def runSwapAttemptTrace (env : AttemptEnv) (tx : TxData) (retryCount : Nat) : SwapTrace :=
  match env.txCount with
  | .error e => ⟨retryCount, none, false, none, .error e⟩
  | .ok nonce =>
    match env.feeData with
    | .error e => ⟨retryCount, none, false, none, .error e⟩
    | .ok fd =>
      let transaction := buildSwapTransaction tx nonce retryCount fd
      match env.send transaction with
      | .error e => ⟨retryCount, some transaction, true, none, .error e⟩
      | .ok h =>
        ⟨retryCount, some transaction, true, some h,
          (pollLoopT (env.polls h) initialConfirmDelay 0 maxPollAttempts).snd⟩

/-- The `while (retryCount < maxRetries)` loop of `executeEvmTransaction`.
`fuel` is `maxRetries - retryCount`, so `fuel = 0` is the loop exit (the
unreachable `"Max retries exceeded"` throw).  The `catch` block first
increments `retryCount`, then maps the two terminal codes to their dedicated
errors, then rethrows the underlying error when `retryCount === maxRetries`,
and otherwise backs off and loops. -/
def goSwap (envs : Nat → AttemptEnv) (tx : TxData) (maxRetries : Nat) :
    Nat → Nat → List SwapTrace × Except JsError Receipt
  | _retryCount, 0 => ([], .error ⟨.other, maxRetriesMsg⟩)
  | retryCount, fuel + 1 =>
    let tr := runSwapAttemptTrace (envs retryCount) tx retryCount
    match tr.result with
    | .ok receipt => ([tr], .ok receipt)
    | .error e =>
      if e.code = ErrCode.insufficientFunds then
        ([tr], .error ⟨.other, insufficientFundsMsg⟩)
      else if e.code = ErrCode.nonceExpired then
        ([tr], .error ⟨.other, nonceExpiredMsg⟩)
      else if retryCount + 1 = maxRetries then ([tr], .error e)
      else
        let rest := goSwap envs tx maxRetries (retryCount + 1) fuel
        (tr :: rest.fst, rest.snd)

/-- `executeEvmTransaction`: run the retry loop from `retryCount = 0` with
`maxRetries = networkConfig.maxRetries || 3`, returning the attempt traces
and the final outcome. -/
def executeEvmTransaction (envs : Nat → AttemptEnv) (tx : TxData) (cfg : ChainConfig) :
    List SwapTrace × Except JsError Receipt :=
  goSwap envs tx (effectiveMaxRetries cfg.maxRetries) 0 (effectiveMaxRetries cfg.maxRetries)

/-- Token metadata inside `routerResult` (`fromToken`/`toToken`). -/
structure TokenInfo where
  tokenSymbol : String
  decimal : String
deriving DecidableEq

/-- The `routerResult` fields read by `formatSwapResult`. -/
structure RouterResult where
  fromToken : TokenInfo
  toToken : TokenInfo
  fromTokenAmount : String
  toTokenAmount : String
  priceImpactPercentage : String
deriving DecidableEq

/-- One entry of `swapData.data`: the optional `routerResult` and `tx`. -/
structure QuoteData where
  routerResult : Option RouterResult
  tx : Option TxData
deriving DecidableEq

/-- The `SwapResponseData` payload: its optional `data` array. -/
structure SwapResponseData where
  data : Option (List QuoteData)
deriving DecidableEq

/-- Per-token display details of a `SwapResult`. -/
structure SwapTokenDetail where
  symbol : String
  decimal : String
deriving DecidableEq

/-- The `SwapResult` fields produced by `formatSwapResult`.  The
human-readable amounts (`displayFromAmount`/`displayToAmount`) are computed
in the source with JavaScript floating-point division and `toFixed(6)`;
that display-only float formatting is outside this integer model and the
amount strings are therefore not carried here. -/
structure SwapResult where
  success : Bool
  transactionId : String
  explorerUrl : String
  fromToken : SwapTokenDetail
  toToken : SwapTokenDetail
  priceImpact : String
deriving DecidableEq

/-- `formatSwapResult`: success flag true, the transaction hash as
`transactionId`, the explorer link `networkConfig.explorer + "/" + txHash`,
and token/price-impact details copied from the router result. -/
def formatSwapResult (txHash : String) (routerResult : RouterResult) (cfg : ChainConfig) :
    SwapResult :=
  { success := true
    transactionId := txHash
    explorerUrl := cfg.explorer ++ "/" ++ txHash
    fromToken := ⟨routerResult.fromToken.tokenSymbol, routerResult.fromToken.decimal⟩
    toToken := ⟨routerResult.toToken.tokenSymbol, routerResult.toToken.decimal⟩
    priceImpact := routerResult.priceImpactPercentage }

/-- Guard-failure messages of `executeSwap`. -/
def missingRouterResultMsg : String := "Invalid swap data: missing router result"

def missingTxDataMsg : String := "Missing transaction data"

/-- `EVMSwapExecutor.executeSwap`: validate the quote payload
(`swapData.data?.[0]`, its `routerResult`, its `tx`), run
`executeEvmTransaction`, and format the confirmed receipt's hash; any error
of the transaction flow is rethrown unchanged. -/
def executeSwap (envs : Nat → AttemptEnv) (swapData : SwapResponseData) (cfg : ChainConfig) :
    List SwapTrace × Except JsError SwapResult :=
  match (swapData.data.getD []).head? with
  | none => ([], .error ⟨.other, missingRouterResultMsg⟩)
  | some quoteData =>
    match quoteData.routerResult with
    | none => ([], .error ⟨.other, missingRouterResultMsg⟩)
    | some routerResult =>
      match quoteData.tx with
      | none => ([], .error ⟨.other, missingTxDataMsg⟩)
      | some tx =>
        let r := executeEvmTransaction envs tx cfg
        (r.fst, r.snd.map fun receipt => formatSwapResult receipt.transactionHash routerResult cfg)

/-- The fee/gas overrides passed to `tokenContract.approve` by
`executeApprovalTransaction`: fixed gas limit 100000 and fee fields scaled
by the constant `DEFAULT_GAS_MULTIPLIER = 150` over 100. -/
structure ApproveRequest where
  gasLimit : Nat
  maxFeePerGas : Nat
  maxPriorityFeePerGas : Nat
deriving DecidableEq

/-- Overrides built from the fetched fee data in one approval attempt. -/
def buildApproveOverrides (fd : FeeData) : ApproveRequest :=
  { gasLimit := 100000
    maxFeePerGas := feeBase fd * APPROVE_GAS_MULTIPLIER / 100
    maxPriorityFeePerGas := feePriority fd * APPROVE_GAS_MULTIPLIER / 100 }

/-- The external world as seen by one attempt of the approval retry loop:
`provider.getFeeData`, `tokenContract.approve` (with the flow's spender and
amount baked into the oracle, keyed by the submitted overrides, returning
the transaction hash), and `tx.wait()` (keyed by that hash, returning the
receipt). -/
structure ApproveAttemptEnv where
  feeData : Except JsError FeeData
  approve : ApproveRequest → Except JsError String
  wait : String → Except JsError Receipt

/-- Observable record of one attempt of the approval retry loop. -/
structure ApproveTrace where
  idx : Nat
  builtTx : Option ApproveRequest
  submitted : Bool
  sentHash : Option String
  result : Except JsError Receipt

/-- One iteration of the `try` block of `executeApprovalTransaction`:
fetch fee data, call `approve` with the built overrides, await the
receipt.  Any thrown error becomes the attempt's `.error` outcome. -/
def runApproveAttemptTrace (env : ApproveAttemptEnv) (retryCount : Nat) : ApproveTrace :=
  match env.feeData with
  | .error e => ⟨retryCount, none, false, none, .error e⟩
  | .ok fd =>
    let req := buildApproveOverrides fd
    match env.approve req with
    | .error e => ⟨retryCount, some req, true, none, .error e⟩
    | .ok h =>
      match env.wait h with
      | .error e => ⟨retryCount, some req, true, some h, .error e⟩
      | .ok receipt => ⟨retryCount, some req, true, some h, .ok receipt⟩

/-- The `while (retryCount < maxRetries)` loop of
`executeApprovalTransaction`.  Its `catch` block increments `retryCount`
and rethrows the underlying error when `retryCount === maxRetries`;
unlike the swap loop it performs no terminal-error classification, so
every failure is treated as retryable. -/
def goApprove (envs : Nat → ApproveAttemptEnv) (maxRetries : Nat) :
    Nat → Nat → List ApproveTrace × Except JsError Receipt
  | _retryCount, 0 => ([], .error ⟨.other, approveMaxRetriesMsg⟩)
  | retryCount, fuel + 1 =>
    let tr := runApproveAttemptTrace (envs retryCount) retryCount
    match tr.result with
    | .ok receipt => ([tr], .ok receipt)
    | .error e =>
      if retryCount + 1 = maxRetries then ([tr], .error e)
      else
        let rest := goApprove envs maxRetries (retryCount + 1) fuel
        (tr :: rest.fst, rest.snd)

/-- `executeApprovalTransaction`: run the approval retry loop from
`retryCount = 0` with `maxRetries = networkConfig.maxRetries || 3`. -/
def executeApprovalTransaction (envs : Nat → ApproveAttemptEnv) (cfg : ChainConfig) :
    List ApproveTrace × Except JsError Receipt :=
  goApprove envs (effectiveMaxRetries cfg.maxRetries) 0 (effectiveMaxRetries cfg.maxRetries)

/-- The external world as seen by `handleTokenApproval`:
`getDexContractAddress` (the OKX HTTP API), the current on-chain allowance
(`tokenContract.allowance`), and the per-attempt environments of the
approval retry loop. -/
structure ApprovalEnv where
  dexContractAddress : Except JsError String
  allowance : Except JsError Nat
  attempts : Nat → ApproveAttemptEnv

/-- `handleTokenApproval`: resolve the DEX spender address, read the current
allowance, throw `"Token already approved for the requested amount"` when
`currentAllowance.gte(requiredAmount)`, and otherwise run
`executeApprovalTransaction` and return its receipt's transaction hash. -/
def handleTokenApproval (env : ApprovalEnv) (amount : Nat) (cfg : ChainConfig) :
    List ApproveTrace × Except JsError String :=
  match env.dexContractAddress with
  | .error e => ([], .error e)
  | .ok _spender =>
    match env.allowance with
    | .error e => ([], .error e)
    | .ok currentAllowance =>
      if currentAllowance ≥ amount then
        ([], .error ⟨.other, alreadyApprovedMsg⟩)
      else
        let r := executeApprovalTransaction env.attempts cfg
        (r.fst, r.snd.map fun receipt => receipt.transactionHash)

/-- `EVMApproveExecutor.executeSwap`: unconditionally throws
`"Swap execution not supported in approval executor"`; its body performs no
provider, wallet, contract or HTTP call, so the trace of network operations
is empty. -/
def approveExecutorExecuteSwap (_swapData : SwapResponseData) :
    List ApproveTrace × Except JsError SwapResult :=
  ([], .error ⟨.other, notSupportedMsg⟩)

/-! ### Concrete fixtures used by counterexamples and witnesses -/

/-- A sample quote transaction payload. -/
def txW : TxData := { data := "0xdeadbeef", toAddress := "0xrouter", value := some 7, gas := some 200000 }

/-- A sample chain configuration with the default-equivalent `maxRetries = 3`. -/
def cfgW : ChainConfig := { explorer := "https://scan.example", maxRetries := some 3 }

/-- A sample transaction hash returned by the wallet. -/
def hashW : String := "0xhash"

/-- Hashes returned by the two dropped-transaction fixtures. -/
def hashAW : String := "hashA"

def hashBW : String := "hashB"

/-- Distinct messages of the three failing submissions in the `envsC8` run. -/
def sendFailMsg0 : String := "send failure on attempt 0"

def sendFailMsg1 : String := "send failure on attempt 1"

def sendFailMsg2 : String := "send failure on attempt 2"

/-- Attempt environment whose fee oracle suggests 200/200 and whose
transaction is dropped at the first poll. -/
def envHi : AttemptEnv :=
  { txCount := .ok 41
    feeData := .ok ⟨some 200, some 200⟩
    send := fun _ => .ok hashAW
    polls := fun _ _ => ⟨none, false⟩ }

/-- Attempt environment whose fee oracle suggests 100/100 and whose
transaction is dropped at the first poll. -/
def envLo : AttemptEnv :=
  { txCount := .ok 41
    feeData := .ok ⟨some 100, some 100⟩
    send := fun _ => .ok hashBW
    polls := fun _ _ => ⟨none, false⟩ }

/-- A network whose suggested fees fall between the first and the second
attempt (200 gwei-units on attempt 0, 100 afterwards). -/
def envsC1 : Nat → AttemptEnv := fun k => if k = 0 then envHi else envLo

/-- The first trace of the `envsC1` run (attempt 0 against `envHi`). -/
def trC1 : SwapTrace := runSwapAttemptTrace envHi txW 0

/-- The transaction built on attempt 0 of the `envsC1` run. -/
def tC1 : TxRequest := buildSwapTransaction txW 41 0 ⟨some 200, some 200⟩

/-- Fee data suggesting 100/100. -/
def fdLo : FeeData := ⟨some 100, some 100⟩

/-- Fee data suggesting 200/200. -/
def fdHi : FeeData := ⟨some 200, some 200⟩

/-- An `INSUFFICIENT_FUNDS`-coded submission error. -/
def insuffErrW : JsError := ⟨.insufficientFunds, "code INSUFFICIENT_FUNDS"⟩

/-- Swap attempt environment whose submission is rejected for insufficient
funds. -/
def envInsuff : AttemptEnv :=
  { txCount := .ok 0
    feeData := .ok ⟨some 10, some 10⟩
    send := fun _ => .error insuffErrW
    polls := fun _ _ => ⟨none, true⟩ }

/-- Every swap attempt fails with insufficient funds. -/
def envsC3 : Nat → AttemptEnv := fun _ => envInsuff

/-- Approval attempt environment whose `approve` call is rejected for
insufficient funds. -/
def aenvFail : ApproveAttemptEnv :=
  { feeData := .ok ⟨some 10, some 10⟩
    approve := fun _ => .error insuffErrW
    wait := fun h => .ok ⟨h, 0⟩ }

/-- Approval attempt environment that succeeds (receipt in block 9). -/
def aenvOk : ApproveAttemptEnv :=
  { feeData := .ok ⟨some 10, some 10⟩
    approve := fun _ => .ok hashW
    wait := fun h => .ok ⟨h, 9⟩ }

/-- Approval attempts: the first fails with insufficient funds, the rest
succeed. -/
def aenvsC3 : Nat → ApproveAttemptEnv := fun k => if k = 0 then aenvFail else aenvOk

/-- The first trace of the `aenvsC3` approval run (attempt 0 against
`aenvFail`, which builds its overrides and then fails on submission). -/
def trC1A : ApproveTrace := runApproveAttemptTrace aenvFail 0

/-- The overrides built on attempt 0 of the `aenvsC3` approval run. -/
def tC1A : ApproveRequest := buildApproveOverrides ⟨some 10, some 10⟩

/-- The DEX approval spender address fixture. -/
def spenderW : String := "0xdexspender"

/-- Approval environment whose on-chain allowance (100) already covers the
requested amount. -/
def envC4 : ApprovalEnv :=
  { dexContractAddress := .ok spenderW
    allowance := .ok 100
    attempts := fun _ => aenvOk }

/-- Poll oracle that reports a receipt (block 7) at the very first poll. -/
def pollsOkW : Nat → PollStep :=
  fun _ => { receipt := some { transactionHash := "0xok", blockNumber := 7 }, pendingKnown := true }

/-- The receipt reported by `pollsOkW`. -/
def receiptOkW : Receipt := { transactionHash := "0xok", blockNumber := 7 }

/-- Poll oracle for a transaction evicted from the pending pool before any
receipt appears. -/
def pollsDropW : Nat → PollStep := fun _ => ⟨none, false⟩

/-- Poll oracle for a transaction that stays pending forever. -/
def pollsPendW : Nat → PollStep := fun _ => ⟨none, true⟩

/-- The error thrown by a failing `getFeeData` query. -/
def feeOracleDownW : JsError := ⟨.other, "fee oracle down"⟩

/-- Swap attempt environment whose fee query throws. -/
def envC6 : AttemptEnv :=
  { txCount := .ok 0
    feeData := .error feeOracleDownW
    send := fun _ => .ok hashW
    polls := fun _ _ => ⟨none, true⟩ }

/-- Approval attempt environment whose fee query throws. -/
def aenvC6 : ApproveAttemptEnv :=
  { feeData := .error feeOracleDownW
    approve := fun _ => .ok hashW
    wait := fun h => .ok ⟨h, 9⟩ }

/-- Distinct per-attempt submission errors, all retryable. -/
def esC8 : Nat → JsError :=
  fun k =>
    ⟨.other,
      if k = 0 then sendFailMsg0
      else if k = 1 then sendFailMsg1
      else sendFailMsg2⟩

/-- Swap attempts that all fail on submission with `esC8`. -/
def envsC8 : Nat → AttemptEnv :=
  fun k =>
    { txCount := .ok 0
      feeData := .ok ⟨some 1, some 1⟩
      send := fun _ => .error (esC8 k)
      polls := fun _ _ => ⟨none, true⟩ }

/-- Approval attempts that all fail on submission with `esC8`. -/
def aenvsC8 : Nat → ApproveAttemptEnv :=
  fun k =>
    { feeData := .ok ⟨some 1, some 1⟩
      approve := fun _ => .error (esC8 k)
      wait := fun h => .ok ⟨h, 0⟩ }

/-- Router result used by the successful swap fixture. -/
def routerW : RouterResult :=
  { fromToken := { tokenSymbol := "ETH", decimal := "18" }
    toToken := { tokenSymbol := "USDC", decimal := "6" }
    fromTokenAmount := "1000000000000000000"
    toTokenAmount := "3000000000"
    priceImpactPercentage := "0.01" }

/-- Quote payload wrapping `routerW` and `txW`. -/
def quoteW : QuoteData := { routerResult := some routerW, tx := some txW }

/-- Swap response payload with one quote entry. -/
def swapW : SwapResponseData := { data := some [quoteW] }

/-- Swap attempt environment that succeeds: the wallet returns `hashW` and
the provider reports a receipt for the queried hash at the first poll. -/
def envOkW : AttemptEnv :=
  { txCount := .ok 41
    feeData := .ok ⟨some 200, some 200⟩
    send := fun _ => .ok hashW
    polls := fun hs _ => { receipt := some { transactionHash := hs, blockNumber := 7 }, pendingKnown := true } }

/-- Every swap attempt succeeds. -/
def envsC9 : Nat → AttemptEnv := fun _ => envOkW

/-- The swap result produced by the `envsC9` run. -/
def resC9 : SwapResult := formatSwapResult hashW routerW cfgW



/-! ### Supporting lemmas: the confirmation poll loop -/

theorem pollLoopT_length_le (polls : Nat → PollStep) :
    ∀ fuel now attempts, (pollLoopT polls now attempts fuel).fst.length ≤ fuel := by
  intro fuel
  induction fuel with
  | zero => intro now attempts; simp [pollLoopT]
  | succ f ih =>
    intro now attempts
    simp only [pollLoopT]
    split
    · simp
    · split
      · simpa using ih (now + pollIntervalMs) (attempts + 1)
      · simp

theorem pollLoopT_times (polls : Nat → PollStep) :
    ∀ fuel now attempts,
      (pollLoopT polls now attempts fuel).fst.map Prod.fst =
        List.range' now (pollLoopT polls now attempts fuel).fst.length pollIntervalMs := by
  intro fuel
  induction fuel with
  | zero => intro now attempts; simp [pollLoopT]
  | succ f ih =>
    intro now attempts
    simp only [pollLoopT]
    split
    · simp [List.range']
    · split
      · simpa [List.range'] using ih (now + pollIntervalMs) (attempts + 1)
      · simp [List.range']

theorem pollLoopT_ok_of (polls : Nat → PollStep) :
    ∀ fuel attempts now i r, i < fuel →
      (∀ j, j < i →
        (polls (attempts + j)).receipt = none ∧ (polls (attempts + j)).pendingKnown = true) →
      (polls (attempts + i)).receipt = some r →
      (pollLoopT polls now attempts fuel).snd = .ok r := by
  intro fuel
  induction fuel with
  | zero => intro attempts now i r hi; exact absurd hi (Nat.not_lt_zero i)
  | succ f ih =>
    intro attempts now i r hi hprev hrec
    simp only [pollLoopT]
    cases i with
    | zero =>
      rw [Nat.add_zero] at hrec
      simp [hrec]
    | succ k =>
      have h0 := hprev 0 (Nat.succ_pos k)
      rw [Nat.add_zero] at h0
      simp only [h0.1, h0.2, if_true]
      exact ih (attempts + 1) (now + pollIntervalMs) k r (by omega)
        (fun j hj => by
          have hx := hprev (j + 1) (by omega)
          rwa [show attempts + 1 + j = attempts + (j + 1) by omega])
        (by rw [show attempts + 1 + k = attempts + (k + 1) by omega]; exact hrec)

theorem pollLoopT_dropped_of (polls : Nat → PollStep) :
    ∀ fuel attempts now i, i < fuel →
      (∀ j, j < i →
        (polls (attempts + j)).receipt = none ∧ (polls (attempts + j)).pendingKnown = true) →
      (polls (attempts + i)).receipt = none →
      (polls (attempts + i)).pendingKnown = false →
      (pollLoopT polls now attempts fuel).snd = .error ⟨.other, droppedMsg⟩ := by
  intro fuel
  induction fuel with
  | zero => intro attempts now i hi; exact absurd hi (Nat.not_lt_zero i)
  | succ f ih =>
    intro attempts now i hi hprev hrec hpend
    simp only [pollLoopT]
    cases i with
    | zero =>
      rw [Nat.add_zero] at hrec hpend
      simp [hrec, hpend]
    | succ k =>
      have h0 := hprev 0 (Nat.succ_pos k)
      rw [Nat.add_zero] at h0
      simp only [h0.1, h0.2, if_true]
      exact ih (attempts + 1) (now + pollIntervalMs) k (by omega)
        (fun j hj => by
          have hx := hprev (j + 1) (by omega)
          rwa [show attempts + 1 + j = attempts + (j + 1) by omega])
        (by rw [show attempts + 1 + k = attempts + (k + 1) by omega]; exact hrec)
        (by rw [show attempts + 1 + k = attempts + (k + 1) by omega]; exact hpend)

theorem pollLoopT_timeout_of (polls : Nat → PollStep) :
    ∀ fuel attempts now,
      (∀ j, j < fuel →
        (polls (attempts + j)).receipt = none ∧ (polls (attempts + j)).pendingKnown = true) →
      (pollLoopT polls now attempts fuel).snd = .error ⟨.other, timeoutMsg⟩ := by
  intro fuel
  induction fuel with
  | zero => intro attempts now _; simp [pollLoopT]
  | succ f ih =>
    intro attempts now hall
    have h0 := hall 0 (Nat.succ_pos f)
    rw [Nat.add_zero] at h0
    simp only [pollLoopT, h0.1, h0.2, if_true]
    exact ih (attempts + 1) (now + pollIntervalMs)
      (fun j hj => by
        have hx := hall (j + 1) (by omega)
        rwa [show attempts + 1 + j = attempts + (j + 1) by omega])

theorem pollLoopT_ok_exists (polls : Nat → PollStep) :
    ∀ fuel attempts now r, (pollLoopT polls now attempts fuel).snd = .ok r →
      ∃ i, (polls i).receipt = some r := by
  intro fuel
  induction fuel with
  | zero => intro attempts now r h; simp [pollLoopT] at h
  | succ f ih =>
    intro attempts now r h
    simp only [pollLoopT] at h
    revert h
    split
    · intro h
      simp at h
      exact ⟨attempts, by simp_all⟩
    · split
      · intro h
        simp at h
        exact ih (attempts + 1) (now + pollIntervalMs) r h
      · intro h
        simp at h

/-! ### Supporting lemmas: single swap attempts -/

theorem runSwapAttemptTrace_idx (env : AttemptEnv) (tx : TxData) (rc : Nat) :
    (runSwapAttemptTrace env tx rc).idx = rc := by
  rcases h1 : env.txCount with e | c
  · simp [runSwapAttemptTrace, h1]
  · rcases h2 : env.feeData with e | fd
    · simp [runSwapAttemptTrace, h1, h2]
    · rcases h3 : env.send (buildSwapTransaction tx c rc fd) with e | hs <;>
        simp [runSwapAttemptTrace, h1, h2, h3]

theorem runSwapAttemptTrace_builtTx (env : AttemptEnv) (tx : TxData) (rc : Nat) (t : TxRequest) :
    (runSwapAttemptTrace env tx rc).builtTx = some t →
    ∃ c fd, env.txCount = .ok c ∧ env.feeData = .ok fd ∧ t = buildSwapTransaction tx c rc fd := by
  intro h
  rcases h1 : env.txCount with e | c
  · simp [runSwapAttemptTrace, h1] at h
  · rcases h2 : env.feeData with e | fd
    · simp [runSwapAttemptTrace, h1, h2] at h
    · rcases h3 : env.send (buildSwapTransaction tx c rc fd) with e | hs <;>
        simp [runSwapAttemptTrace, h1, h2, h3] at h <;>
        exact ⟨c, fd, rfl, rfl, h.symm⟩

theorem runSwapAttemptTrace_ok (env : AttemptEnv) (tx : TxData) (rc : Nat) (r : Receipt) :
    (runSwapAttemptTrace env tx rc).result = .ok r →
    ∃ hs, (runSwapAttemptTrace env tx rc).sentHash = some hs ∧
      ∃ i, (env.polls hs i).receipt = some r := by
  intro h
  rcases h1 : env.txCount with e | c
  · simp [runSwapAttemptTrace, h1] at h
  · rcases h2 : env.feeData with e | fd
    · simp [runSwapAttemptTrace, h1, h2] at h
    · rcases h3 : env.send (buildSwapTransaction tx c rc fd) with e | hs
      · simp [runSwapAttemptTrace, h1, h2, h3] at h
      · refine ⟨hs, by simp [runSwapAttemptTrace, h1, h2, h3], ?_⟩
        simp only [runSwapAttemptTrace, h1, h2, h3] at h
        exact pollLoopT_ok_exists (env.polls hs) maxPollAttempts 0 initialConfirmDelay r h

/-! ### Supporting lemmas: the swap retry loop -/

theorem goSwap_length_le (envs : Nat → AttemptEnv) (tx : TxData) (m : Nat) :
    ∀ fuel rc, (goSwap envs tx m rc fuel).fst.length ≤ fuel := by
  intro fuel
  induction fuel with
  | zero => intro rc; simp [goSwap]
  | succ f ih =>
    intro rc
    simp only [goSwap]
    split
    · simp
    · split
      · simp
      · split
        · simp
        · split
          · simp
          · simpa using ih (rc + 1)

theorem goSwap_mem (envs : Nat → AttemptEnv) (tx : TxData) (m : Nat) :
    ∀ fuel rc tr, tr ∈ (goSwap envs tx m rc fuel).fst →
      tr = runSwapAttemptTrace (envs tr.idx) tx tr.idx := by
  intro fuel
  induction fuel with
  | zero => intro rc tr h; simp [goSwap] at h
  | succ f ih =>
    intro rc tr h
    simp only [goSwap] at h
    revert h
    split
    · intro h
      simp at h
      subst h
      rw [runSwapAttemptTrace_idx]
    · split
      · intro h
        simp at h
        subst h
        rw [runSwapAttemptTrace_idx]
      · split
        · intro h
          simp at h
          subst h
          rw [runSwapAttemptTrace_idx]
        · split
          · intro h
            simp at h
            subst h
            rw [runSwapAttemptTrace_idx]
          · intro h
            simp only [List.mem_cons] at h
            rcases h with h | h
            · subst h
              rw [runSwapAttemptTrace_idx]
            · exact ih (rc + 1) tr h

theorem goSwap_idx_map (envs : Nat → AttemptEnv) (tx : TxData) (m : Nat) :
    ∀ fuel rc, (goSwap envs tx m rc fuel).fst.map SwapTrace.idx =
      List.range' rc (goSwap envs tx m rc fuel).fst.length := by
  intro fuel
  induction fuel with
  | zero => intro rc; simp [goSwap]
  | succ f ih =>
    intro rc
    simp only [goSwap]
    split
    · simp [List.range', runSwapAttemptTrace_idx]
    · split
      · simp [List.range', runSwapAttemptTrace_idx]
      · split
        · simp [List.range', runSwapAttemptTrace_idx]
        · split
          · simp [List.range', runSwapAttemptTrace_idx]
          · simp only [List.map_cons, List.length_cons, List.range',
              runSwapAttemptTrace_idx]
            rw [ih (rc + 1)]

theorem goSwap_last_ok (envs : Nat → AttemptEnv) (tx : TxData) (m : Nat) :
    ∀ fuel rc r, (goSwap envs tx m rc fuel).snd = .ok r →
      ∃ tr, (goSwap envs tx m rc fuel).fst.getLast? = some tr ∧ tr.result = .ok r := by
  intro fuel
  induction fuel with
  | zero => intro rc r h; simp [goSwap] at h
  | succ f ih =>
    intro rc r h
    rcases hres : (runSwapAttemptTrace (envs rc) tx rc).result with e | rec
    · simp only [goSwap, hres] at h ⊢
      by_cases h1 : e.code = ErrCode.insufficientFunds
      · simp [h1] at h
      · by_cases h2 : e.code = ErrCode.nonceExpired
        · simp [h1, h2] at h
        · by_cases h3 : rc + 1 = m
          · simp [h1, h2, h3] at h
          · simp only [if_neg h1, if_neg h2, if_neg h3] at h ⊢
            obtain ⟨tr, hlast, htr⟩ := ih (rc + 1) r h
            refine ⟨tr, ?_, htr⟩
            rcases hl : (goSwap envs tx m (rc + 1) f).fst with _ | ⟨b, l⟩
            · rw [hl] at hlast
              simp at hlast
            · rw [hl] at hlast
              simpa [List.getLast?_cons_cons] using hlast
    · simp only [goSwap, hres] at h ⊢
      simp at h
      subst h
      exact ⟨_, by simp, hres⟩

theorem goSwap_all_retryable (envs : Nat → AttemptEnv) (tx : TxData) (es : Nat → JsError) :
    ∀ fuel rc m, rc + fuel = m → 1 ≤ fuel →
      (∀ k, k < m →
        (runSwapAttemptTrace (envs k) tx k).result = .error (es k) ∧
          (es k).code = ErrCode.other) →
      (goSwap envs tx m rc fuel).snd = .error (es (m - 1)) := by
  intro fuel
  induction fuel with
  | zero => intro rc m _ h _; omega
  | succ f ih =>
    intro rc m hsum _ hall
    have hk := hall rc (by omega)
    have hne1 : ¬((es rc).code = ErrCode.insufficientFunds) := by
      rw [hk.2]; intro hcc; exact ErrCode.noConfusion hcc
    have hne2 : ¬((es rc).code = ErrCode.nonceExpired) := by
      rw [hk.2]; intro hcc; exact ErrCode.noConfusion hcc
    cases f with
    | zero =>
      have hm : rc + 1 = m := by omega
      have hrc : rc = m - 1 := by omega
      simp only [goSwap, hk.1, if_neg hne1, if_neg hne2, if_pos hm]
      rw [hrc]
    | succ f' =>
      have hm : ¬(rc + 1 = m) := by omega
      simp only [goSwap, hk.1, if_neg hne1, if_neg hne2, if_neg hm]
      exact ih (rc + 1) m (by omega) (by omega) hall

theorem goSwap_terminal (envs : Nat → AttemptEnv) (tx : TxData) :
    ∀ fuel rc m k e, rc + fuel = m → rc ≤ k → k < m →
      (∀ j, rc ≤ j → j < k →
        ∃ ej, (runSwapAttemptTrace (envs j) tx j).result = .error ej ∧
          ej.code = ErrCode.other) →
      (runSwapAttemptTrace (envs k) tx k).result = .error e →
      e.code ≠ ErrCode.other →
      (goSwap envs tx m rc fuel).snd =
        .error ⟨.other,
          if e.code = ErrCode.insufficientFunds then insufficientFundsMsg
          else nonceExpiredMsg⟩ ∧
      (goSwap envs tx m rc fuel).fst.length = k - rc + 1 := by
  intro fuel
  induction fuel with
  | zero => intro rc m k e hsum hrk hkm _ _ _; omega
  | succ f ih =>
    intro rc m k e hsum hrk hkm hprev hres hterm
    rcases Nat.eq_or_lt_of_le hrk with heq | hlt
    · subst heq
      simp only [goSwap, hres]
      by_cases h1 : e.code = ErrCode.insufficientFunds
      · simp [h1]
      · have h2 : e.code = ErrCode.nonceExpired := by
          cases hc : e.code
          · exact absurd hc h1
          · rfl
          · exact absurd hc hterm
        simp [h1, h2]
    · obtain ⟨ej, hej, hejc⟩ := hprev rc (le_refl rc) hlt
      have hne1 : ¬(ej.code = ErrCode.insufficientFunds) := by
        rw [hejc]; intro hcc; exact ErrCode.noConfusion hcc
      have hne2 : ¬(ej.code = ErrCode.nonceExpired) := by
        rw [hejc]; intro hcc; exact ErrCode.noConfusion hcc
      have hne3 : ¬(rc + 1 = m) := by omega
      simp only [goSwap, hej, if_neg hne1, if_neg hne2, if_neg hne3]
      have hrec := ih (rc + 1) m k e (by omega) (by omega) hkm
        (fun j hj1 hj2 => hprev j (by omega) hj2) hres hterm
      refine ⟨hrec.1, ?_⟩
      simp only [List.length_cons, hrec.2]
      omega

/-! ### Supporting lemmas: the approval retry loop -/

theorem runApproveAttemptTrace_idx (env : ApproveAttemptEnv) (rc : Nat) :
    (runApproveAttemptTrace env rc).idx = rc := by
  rcases h1 : env.feeData with e | fd
  · simp [runApproveAttemptTrace, h1]
  · rcases h2 : env.approve (buildApproveOverrides fd) with e | hs
    · simp [runApproveAttemptTrace, h1, h2]
    · rcases h3 : env.wait hs with e | r <;>
        simp [runApproveAttemptTrace, h1, h2, h3]

theorem runApproveAttemptTrace_builtTx (env : ApproveAttemptEnv) (rc : Nat)
    (t : ApproveRequest) :
    (runApproveAttemptTrace env rc).builtTx = some t →
    ∃ fd, env.feeData = .ok fd ∧ t = buildApproveOverrides fd := by
  intro h
  rcases h1 : env.feeData with e | fd
  · simp [runApproveAttemptTrace, h1] at h
  · rcases h2 : env.approve (buildApproveOverrides fd) with e | hs
    · simp [runApproveAttemptTrace, h1, h2] at h
      exact ⟨fd, rfl, h.symm⟩
    · rcases h3 : env.wait hs with e | r <;>
        simp [runApproveAttemptTrace, h1, h2, h3] at h <;>
        exact ⟨fd, rfl, h.symm⟩

theorem goApprove_mem (envs : Nat → ApproveAttemptEnv) (m : Nat) :
    ∀ fuel rc tr, tr ∈ (goApprove envs m rc fuel).fst →
      tr = runApproveAttemptTrace (envs tr.idx) tr.idx := by
  intro fuel
  induction fuel with
  | zero => intro rc tr h; simp [goApprove] at h
  | succ f ih =>
    intro rc tr h
    simp only [goApprove] at h
    revert h
    split
    · intro h
      simp at h
      subst h
      rw [runApproveAttemptTrace_idx]
    · split
      · intro h
        simp at h
        subst h
        rw [runApproveAttemptTrace_idx]
      · intro h
        simp only [List.mem_cons] at h
        rcases h with h | h
        · subst h
          rw [runApproveAttemptTrace_idx]
        · exact ih (rc + 1) tr h

theorem goApprove_length_le (envs : Nat → ApproveAttemptEnv) (m : Nat) :
    ∀ fuel rc, (goApprove envs m rc fuel).fst.length ≤ fuel := by
  intro fuel
  induction fuel with
  | zero => intro rc; simp [goApprove]
  | succ f ih =>
    intro rc
    simp only [goApprove]
    split
    · simp
    · split
      · simp
      · simpa using ih (rc + 1)

theorem goApprove_idx_map (envs : Nat → ApproveAttemptEnv) (m : Nat) :
    ∀ fuel rc, (goApprove envs m rc fuel).fst.map ApproveTrace.idx =
      List.range' rc (goApprove envs m rc fuel).fst.length := by
  intro fuel
  induction fuel with
  | zero => intro rc; simp [goApprove]
  | succ f ih =>
    intro rc
    simp only [goApprove]
    split
    · simp [List.range', runApproveAttemptTrace_idx]
    · split
      · simp [List.range', runApproveAttemptTrace_idx]
      · simp only [List.map_cons, List.length_cons, List.range',
          runApproveAttemptTrace_idx]
        rw [ih (rc + 1)]

theorem goApprove_all_fail (envs : Nat → ApproveAttemptEnv) (es : Nat → JsError) :
    ∀ fuel rc m, rc + fuel = m → 1 ≤ fuel →
      (∀ k, k < m → (runApproveAttemptTrace (envs k) k).result = .error (es k)) →
      (goApprove envs m rc fuel).snd = .error (es (m - 1)) := by
  intro fuel
  induction fuel with
  | zero => intro rc m _ h _; omega
  | succ f ih =>
    intro rc m hsum _ hall
    have hk := hall rc (by omega)
    cases f with
    | zero =>
      have hm : rc + 1 = m := by omega
      have hrc : rc = m - 1 := by omega
      simp only [goApprove, hk, if_pos hm]
      rw [hrc]
    | succ f' =>
      have hm : ¬(rc + 1 = m) := by omega
      simp only [goApprove, hk, if_neg hm]
      exact ih (rc + 1) m (by omega) (by omega) hall

/-- The approval loop retries after a first-attempt failure regardless of the
error's code: with a second attempt succeeding, the flow succeeds after two
attempts instead of aborting on the first error. -/
theorem goApprove_retries_any_error (envs : Nat → ApproveAttemptEnv) (m : Nat)
    (e : JsError) (r : Receipt) :
    2 ≤ m →
    (runApproveAttemptTrace (envs 0) 0).result = .error e →
    (runApproveAttemptTrace (envs 1) 1).result = .ok r →
    (goApprove envs m 0 m).snd = .ok r ∧ (goApprove envs m 0 m).fst.length = 2 := by
  intro hm h0 h1
  obtain ⟨f, rfl⟩ : ∃ f, m = f + 2 := ⟨m - 2, by omega⟩
  have hne : ¬(0 + 1 = f + 2) := by omega
  simp only [goApprove, h0, if_neg hne, h1]
  constructor
  · simp
  · simp

/-! ### Generic helper -/

theorem except_map_ok {ε α β : Type} (f : α → β) (x : Except ε α) (b : β) :
    x.map f = .ok b → ∃ a, x = .ok a ∧ b = f a := by
  cases x with
  | error e => intro h; simp [Except.map] at h
  | ok a => intro h; simp [Except.map] at h; exact ⟨a, rfl, h.symm⟩

theorem one_le_effectiveMaxRetries (m : Option Nat) : 1 ≤ effectiveMaxRetries m := by
  rcases m with _ | n
  · decide
  · rcases n with _ | k
    · decide
    · exact Nat.succ_le_succ (Nat.zero_le k)

/-! ### Claim theorems -/

/-- C1 (counterexample): the fee quotes of successive retry attempts are not
non-decreasing, and the multiplier is not scaled by the attempt index.  In
the `envsC1` run the network-suggested fee drops from 200 to 100 between
attempt 0 and attempt 1; the built fees are 220 and 110 on every later
attempt (constant multiplier 110/100, no per-attempt escalation), so the fee
of attempt 1 is strictly below the fee of attempt 0. -/
theorem c1_counterexample :
    ((executeEvmTransaction envsC1 txW cfgW).fst.map
      (fun tr => tr.builtTx.map TxRequest.maxFeePerGas)) =
        [some 220, some 110, some 110] ∧
    ((executeEvmTransaction envsC1 txW cfgW).fst.map
      (fun tr => tr.builtTx.map TxRequest.maxPriorityFeePerGas)) =
        [some 220, some 110, some 110] ∧
    110 < 220 :=
  ⟨rfl, rfl, by decide⟩

/-- C1 (amended): each attempt's fee fields are the network-suggested fees
fetched during that attempt, scaled by a constant multiplier with floor
division — `SWAP_GAS_MULTIPLIER = 110` over 100 in the swap executor and
`APPROVE_GAS_MULTIPLIER = 150` over 100 in the approval executor —
independent of the attempt index.  Since both scalings are strictly
monotone, built fees compare exactly as the underlying suggestions do:
fees are non-decreasing across attempts exactly when the fresh network
suggestions are non-decreasing, and they decrease when the suggestion
drops. -/
theorem c1_fee_constant_multiplier (envs : Nat → AttemptEnv)
    (aenvs : Nat → ApproveAttemptEnv) (tx : TxData) (cfg : ChainConfig) :
    (∀ tr, tr ∈ (executeEvmTransaction envs tx cfg).fst → ∀ t, tr.builtTx = some t →
      ∃ fd, (envs tr.idx).feeData = .ok fd ∧
        t.maxFeePerGas = feeBase fd * SWAP_GAS_MULTIPLIER / 100 ∧
        t.maxPriorityFeePerGas = feePriority fd * SWAP_GAS_MULTIPLIER / 100) ∧
    (∀ tr, tr ∈ (executeApprovalTransaction aenvs cfg).fst → ∀ t, tr.builtTx = some t →
      ∃ fd, (aenvs tr.idx).feeData = .ok fd ∧
        t.maxFeePerGas = feeBase fd * APPROVE_GAS_MULTIPLIER / 100 ∧
        t.maxPriorityFeePerGas = feePriority fd * APPROVE_GAS_MULTIPLIER / 100) ∧
    (∀ tx1 tx2 c c' n n' fd fd',
      (buildSwapTransaction tx1 c n fd).maxFeePerGas ≤
          (buildSwapTransaction tx2 c' n' fd').maxFeePerGas ↔
        feeBase fd ≤ feeBase fd') ∧
    (∀ tx1 tx2 c c' n n' fd fd',
      (buildSwapTransaction tx1 c n fd).maxPriorityFeePerGas ≤
          (buildSwapTransaction tx2 c' n' fd').maxPriorityFeePerGas ↔
        feePriority fd ≤ feePriority fd') ∧
    (∀ fd fd',
      (buildApproveOverrides fd).maxFeePerGas ≤ (buildApproveOverrides fd').maxFeePerGas ↔
        feeBase fd ≤ feeBase fd') ∧
    (∀ fd fd',
      (buildApproveOverrides fd).maxPriorityFeePerGas ≤
          (buildApproveOverrides fd').maxPriorityFeePerGas ↔
        feePriority fd ≤ feePriority fd') := by
  refine ⟨?_, ?_, ?_, ?_, ?_, ?_⟩
  · intro tr htr t ht
    simp only [executeEvmTransaction] at htr
    have hmem := goSwap_mem envs tx (effectiveMaxRetries cfg.maxRetries)
      (effectiveMaxRetries cfg.maxRetries) 0 tr htr
    rw [hmem] at ht
    obtain ⟨c, fd, _, hfd, hb⟩ := runSwapAttemptTrace_builtTx _ tx _ t ht
    exact ⟨fd, hfd, by rw [hb]; rfl, by rw [hb]; rfl⟩
  · intro tr htr t ht
    simp only [executeApprovalTransaction] at htr
    have hmem := goApprove_mem aenvs (effectiveMaxRetries cfg.maxRetries)
      (effectiveMaxRetries cfg.maxRetries) 0 tr htr
    rw [hmem] at ht
    obtain ⟨fd, hfd, hb⟩ := runApproveAttemptTrace_builtTx _ _ t ht
    exact ⟨fd, hfd, by rw [hb]; rfl, by rw [hb]; rfl⟩
  · intro tx1 tx2 c c' n n' fd fd'
    simp only [buildSwapTransaction, SWAP_GAS_MULTIPLIER]
    omega
  · intro tx1 tx2 c c' n n' fd fd'
    simp only [buildSwapTransaction, SWAP_GAS_MULTIPLIER]
    omega
  · intro fd fd'
    simp only [buildApproveOverrides, APPROVE_GAS_MULTIPLIER]
    omega
  · intro fd fd'
    simp only [buildApproveOverrides, APPROVE_GAS_MULTIPLIER]
    omega

/-- C1 witness: the amended statement instantiated on the `envsC1` swap run,
on the `aenvsC3` approval run, and on concrete fee data. -/
theorem c1_fee_constant_multiplier_witness :
    (∃ fd, (envsC1 trC1.idx).feeData = .ok fd ∧
      tC1.maxFeePerGas = feeBase fd * SWAP_GAS_MULTIPLIER / 100 ∧
      tC1.maxPriorityFeePerGas = feePriority fd * SWAP_GAS_MULTIPLIER / 100) ∧
    (∃ fd, (aenvsC3 trC1A.idx).feeData = .ok fd ∧
      tC1A.maxFeePerGas = feeBase fd * APPROVE_GAS_MULTIPLIER / 100 ∧
      tC1A.maxPriorityFeePerGas = feePriority fd * APPROVE_GAS_MULTIPLIER / 100) ∧
    ((buildSwapTransaction txW 3 0 fdLo).maxFeePerGas ≤
        (buildSwapTransaction txW 4 1 fdHi).maxFeePerGas ↔
      feeBase fdLo ≤ feeBase fdHi) ∧
    ((buildApproveOverrides fdLo).maxPriorityFeePerGas ≤
        (buildApproveOverrides fdHi).maxPriorityFeePerGas ↔
      feePriority fdLo ≤ feePriority fdHi) := by
  refine ⟨?_, ?_, ?_, ?_⟩
  · exact (c1_fee_constant_multiplier envsC1 aenvsC3 txW cfgW).1 trC1 (List.Mem.head _) tC1 rfl
  · exact (c1_fee_constant_multiplier envsC1 aenvsC3 txW cfgW).2.1 trC1A (List.Mem.head _)
      tC1A rfl
  · exact (c1_fee_constant_multiplier envsC1 aenvsC3 txW cfgW).2.2.1 txW txW 3 4 0 1 fdLo fdHi
  · exact (c1_fee_constant_multiplier envsC1 aenvsC3 txW cfgW).2.2.2.2.2 fdLo fdHi

/-- C2: in both retry loops the number of attempts — in particular the
number of attempts that invoked a submission — never exceeds
`maxRetries = networkConfig.maxRetries || 3` (default 3), and attempts are
strictly sequential: the trace is a list built one attempt after the other
(this embedding has no concurrency), with attempt indices exactly
`0, 1, 2, ...` in order. -/
theorem c2_attempt_bound (envs : Nat → AttemptEnv) (aenvs : Nat → ApproveAttemptEnv)
    (tx : TxData) (cfg : ChainConfig) :
    ((executeEvmTransaction envs tx cfg).fst.filter (fun tr => tr.submitted)).length ≤
      effectiveMaxRetries cfg.maxRetries ∧
    (executeEvmTransaction envs tx cfg).fst.length ≤ effectiveMaxRetries cfg.maxRetries ∧
    (executeEvmTransaction envs tx cfg).fst.map SwapTrace.idx =
      List.range (executeEvmTransaction envs tx cfg).fst.length ∧
    ((executeApprovalTransaction aenvs cfg).fst.filter (fun tr => tr.submitted)).length ≤
      effectiveMaxRetries cfg.maxRetries ∧
    (executeApprovalTransaction aenvs cfg).fst.length ≤ effectiveMaxRetries cfg.maxRetries ∧
    (executeApprovalTransaction aenvs cfg).fst.map ApproveTrace.idx =
      List.range (executeApprovalTransaction aenvs cfg).fst.length ∧
    effectiveMaxRetries none = 3 := by
  refine ⟨?_, ?_, ?_, ?_, ?_, ?_, rfl⟩
  · exact le_trans (List.length_filter_le _ _)
      (goSwap_length_le envs tx (effectiveMaxRetries cfg.maxRetries)
        (effectiveMaxRetries cfg.maxRetries) 0)
  · exact goSwap_length_le envs tx (effectiveMaxRetries cfg.maxRetries)
      (effectiveMaxRetries cfg.maxRetries) 0
  · rw [List.range_eq_range']
    exact goSwap_idx_map envs tx (effectiveMaxRetries cfg.maxRetries)
      (effectiveMaxRetries cfg.maxRetries) 0
  · exact le_trans (List.length_filter_le _ _)
      (goApprove_length_le aenvs (effectiveMaxRetries cfg.maxRetries)
        (effectiveMaxRetries cfg.maxRetries) 0)
  · exact goApprove_length_le aenvs (effectiveMaxRetries cfg.maxRetries)
      (effectiveMaxRetries cfg.maxRetries) 0
  · rw [List.range_eq_range']
    exact goApprove_idx_map aenvs (effectiveMaxRetries cfg.maxRetries)
      (effectiveMaxRetries cfg.maxRetries) 0

/-- C4 (counterexample): when the current allowance (100) already covers the
requested amount (50), `handleTokenApproval` performs zero submissions but
throws the error `"Token already approved for the requested amount"` — an
error outcome, not a no-op success. -/
theorem c4_counterexample :
    handleTokenApproval envC4 50 cfgW = ([], .error ⟨.other, alreadyApprovedMsg⟩) := rfl

/-- C4 (amended): when the resolved allowance is at least the requested
amount, the approval flow performs zero transaction submissions (empty
attempt trace) and terminates by throwing the distinct error
`"Token already approved for the requested amount"` — it fails rather than
returning a no-op success. -/
theorem c4_already_approved_throws (env : ApprovalEnv) (amount : Nat) (cfg : ChainConfig)
    (spender : String) (cur : Nat) :
    env.dexContractAddress = .ok spender → env.allowance = .ok cur → amount ≤ cur →
    handleTokenApproval env amount cfg = ([], .error ⟨.other, alreadyApprovedMsg⟩) := by
  intro h1 h2 h3
  simp [handleTokenApproval, h1, h2, h3]

/-- C4 witness: the amended statement instantiated on `envC4` with
allowance 100 and requested amount 50. -/
theorem c4_already_approved_throws_witness :
    handleTokenApproval envC4 50 cfgW = ([], .error ⟨.other, alreadyApprovedMsg⟩) :=
  c4_already_approved_throws envC4 50 cfgW spenderW 100 rfl rfl (by decide)

/-- C10: `EVMApproveExecutor.executeSwap` throws
`"Swap execution not supported in approval executor"` for every input and
performs no network operation (its operation trace is empty). -/
theorem c10_approve_executor_rejects_swap (swapData : SwapResponseData) :
    approveExecutorExecuteSwap swapData = ([], .error ⟨.other, notSupportedMsg⟩) := rfl

/-- C3 (counterexample): the approval retry loop does not abort on a
terminal error.  In the `aenvsC3` run, attempt 0 fails with an
`INSUFFICIENT_FUNDS`-coded error, yet the flow consumes a retry and
succeeds on attempt 1 (two attempts in total) instead of aborting
immediately with the terminal error. -/
theorem c3_counterexample :
    (runApproveAttemptTrace (aenvsC3 0) 0).result = .error insuffErrW ∧
    insuffErrW.code = ErrCode.insufficientFunds ∧
    (executeApprovalTransaction aenvsC3 cfgW).snd = .ok ⟨hashW, 9⟩ ∧
    (executeApprovalTransaction aenvsC3 cfgW).fst.length = 2 :=
  ⟨rfl, rfl, rfl, rfl⟩

/-- C3 (amended): in the swap retry loop an attempt failing with a terminal
code (`INSUFFICIENT_FUNDS` or `NONCE_EXPIRED`), after any prefix of
retryable failures, aborts the flow immediately with the mapped terminal
error and consumes no further attempts; the approval retry loop however has
no terminal classification — after a first-attempt insufficient-funds error
it consumes a retry and continues (succeeding on the second attempt when
that one succeeds). -/
theorem c3_terminal_classification (envs : Nat → AttemptEnv)
    (aenvs : Nat → ApproveAttemptEnv) (tx : TxData) (cfg : ChainConfig) :
    (∀ k e, k < effectiveMaxRetries cfg.maxRetries →
      (∀ j, j < k → ∃ ej, (runSwapAttemptTrace (envs j) tx j).result = .error ej ∧
        ej.code = ErrCode.other) →
      (runSwapAttemptTrace (envs k) tx k).result = .error e →
      e.code ≠ ErrCode.other →
      (executeEvmTransaction envs tx cfg).snd =
        .error ⟨.other,
          if e.code = ErrCode.insufficientFunds then insufficientFundsMsg
          else nonceExpiredMsg⟩ ∧
      (executeEvmTransaction envs tx cfg).fst.length = k + 1) ∧
    (∀ e r, 2 ≤ effectiveMaxRetries cfg.maxRetries →
      (runApproveAttemptTrace (aenvs 0) 0).result = .error e →
      (runApproveAttemptTrace (aenvs 1) 1).result = .ok r →
      (executeApprovalTransaction aenvs cfg).snd = .ok r ∧
      (executeApprovalTransaction aenvs cfg).fst.length = 2) := by
  constructor
  · intro k e hk hprev hres hterm
    have hmain := goSwap_terminal envs tx (effectiveMaxRetries cfg.maxRetries) 0
      (effectiveMaxRetries cfg.maxRetries) k e (by omega) (Nat.zero_le k) hk
      (fun j _ hj => hprev j hj) hres hterm
    constructor
    · simpa only [executeEvmTransaction] using hmain.1
    · have := hmain.2
      simp only [executeEvmTransaction]
      omega
  · intro e r hm h0 h1
    have hmain := goApprove_retries_any_error aenvs (effectiveMaxRetries cfg.maxRetries)
      e r hm h0 h1
    exact ⟨by simpa only [executeApprovalTransaction] using hmain.1,
      by simpa only [executeApprovalTransaction] using hmain.2⟩

/-- C3 witness: the amended statement instantiated on the `envsC3` (swap,
insufficient funds on attempt 0, immediate abort after one attempt) and
`aenvsC3` (approval, retried and succeeded after two attempts) runs. -/
theorem c3_terminal_classification_witness :
    ((executeEvmTransaction envsC3 txW cfgW).snd =
        .error ⟨.other, insufficientFundsMsg⟩ ∧
      (executeEvmTransaction envsC3 txW cfgW).fst.length = 0 + 1) ∧
    ((executeApprovalTransaction aenvsC3 cfgW).snd = .ok ⟨hashW, 9⟩ ∧
      (executeApprovalTransaction aenvsC3 cfgW).fst.length = 2) := by
  constructor
  · exact (c3_terminal_classification envsC3 aenvsC3 txW cfgW).1 0 insuffErrW (by decide)
      (fun j hj => absurd hj (Nat.not_lt_zero j)) rfl (by decide)
  · exact (c3_terminal_classification envsC3 aenvsC3 txW cfgW).2 insuffErrW ⟨hashW, 9⟩
      (by decide) rfl rfl

/-- C5: the confirmation poller performs its first receipt poll at
`initialConfirmDelay = 5000` ms (5 time units of 1000 ms) after submission,
then polls at a fixed `pollIntervalMs = 2000` ms interval, performing at
most `maxPollAttempts = 30` polls; a present receipt terminates the wait
with that receipt (carrying block metadata), an absent receipt with the
transaction unknown to the pending pool terminates with the dropped error,
and reaching the poll ceiling unresolved terminates with the timeout
error. -/
theorem c5_confirmation_poller (polls : Nat → PollStep) :
    ((pollLoopT polls initialConfirmDelay 0 maxPollAttempts).fst.map Prod.fst =
      List.range' initialConfirmDelay
        (pollLoopT polls initialConfirmDelay 0 maxPollAttempts).fst.length pollIntervalMs) ∧
    (pollLoopT polls initialConfirmDelay 0 maxPollAttempts).fst.length ≤ maxPollAttempts ∧
    (∀ i r, i < maxPollAttempts →
      (∀ j, j < i → (polls j).receipt = none ∧ (polls j).pendingKnown = true) →
      (polls i).receipt = some r →
      (pollLoopT polls initialConfirmDelay 0 maxPollAttempts).snd = .ok r) ∧
    (∀ i, i < maxPollAttempts →
      (∀ j, j < i → (polls j).receipt = none ∧ (polls j).pendingKnown = true) →
      (polls i).receipt = none → (polls i).pendingKnown = false →
      (pollLoopT polls initialConfirmDelay 0 maxPollAttempts).snd =
        .error ⟨.other, droppedMsg⟩) ∧
    ((∀ j, j < maxPollAttempts →
        (polls j).receipt = none ∧ (polls j).pendingKnown = true) →
      (pollLoopT polls initialConfirmDelay 0 maxPollAttempts).snd =
        .error ⟨.other, timeoutMsg⟩) := by
  refine ⟨pollLoopT_times polls maxPollAttempts initialConfirmDelay 0,
    pollLoopT_length_le polls maxPollAttempts initialConfirmDelay 0, ?_, ?_, ?_⟩
  · intro i r hi hprev hrec
    exact pollLoopT_ok_of polls maxPollAttempts 0 initialConfirmDelay i r hi
      (fun j hj => by simpa using hprev j hj) (by simpa using hrec)
  · intro i hi hprev hrec hpend
    exact pollLoopT_dropped_of polls maxPollAttempts 0 initialConfirmDelay i hi
      (fun j hj => by simpa using hprev j hj) (by simpa using hrec)
      (by simpa using hpend)
  · intro hall
    exact pollLoopT_timeout_of polls maxPollAttempts 0 initialConfirmDelay
      (fun j hj => by simpa using hall j hj)

/-- C5 witness: the poller statement instantiated on the three concrete
poll oracles — receipt at the first poll, eviction at the first poll, and
pending forever. -/
theorem c5_confirmation_poller_witness :
    (pollLoopT pollsOkW initialConfirmDelay 0 maxPollAttempts).snd = .ok receiptOkW ∧
    (pollLoopT pollsDropW initialConfirmDelay 0 maxPollAttempts).snd =
      .error ⟨.other, droppedMsg⟩ ∧
    (pollLoopT pollsPendW initialConfirmDelay 0 maxPollAttempts).snd =
      .error ⟨.other, timeoutMsg⟩ := by
  refine ⟨?_, ?_, ?_⟩
  · exact (c5_confirmation_poller pollsOkW).2.2.1 0 receiptOkW (by decide)
      (fun j hj => absurd hj (Nat.not_lt_zero j)) rfl
  · exact (c5_confirmation_poller pollsDropW).2.2.2.1 0 (by decide)
      (fun j hj => absurd hj (Nat.not_lt_zero j)) rfl rfl
  · exact (c5_confirmation_poller pollsPendW).2.2.2.2 (fun j hj => ⟨rfl, rfl⟩)

/-- C6 (counterexample): the fee-estimation step can throw.  In the `envC6`
run `getFeeData` throws; the attempt fails with that very error instead of
degrading to the fallback constants, and with every attempt's fee query
failing, the whole flow is blocked by the fee-oracle outage (three attempts
consumed, final outcome the fee-oracle error). -/
theorem c6_counterexample :
    (runSwapAttemptTrace envC6 txW 0).result = .error feeOracleDownW ∧
    (runSwapAttemptTrace envC6 txW 0).submitted = false ∧
    (executeEvmTransaction (fun _ => envC6) txW cfgW).snd = .error feeOracleDownW ∧
    (executeEvmTransaction (fun _ => envC6) txW cfgW).fst.length = 3 :=
  ⟨rfl, rfl, rfl, rfl⟩

/-- C6 (amended): when the fee query succeeds but a suggested field is
absent (`null`), the documented fallbacks are used — zero base fee and the
fixed 3-gwei minimum priority fee — in both executors; but when the fee
query itself throws, the error is not caught at the fee-estimation step: it
becomes the attempt's failure (no submission happens) and consumes a retry,
so a fee-oracle outage can block the flow. -/
theorem c6_fee_fallback :
    (∀ p, feeBase ⟨none, p⟩ = 0) ∧
    (∀ b, feePriority ⟨b, none⟩ = FALLBACK_PRIORITY_FEE) ∧
    (∀ (env : AttemptEnv) (tx : TxData) (rc c : Nat) (e : JsError),
      env.txCount = .ok c → env.feeData = .error e →
      (runSwapAttemptTrace env tx rc).result = .error e ∧
      (runSwapAttemptTrace env tx rc).submitted = false) ∧
    (∀ (env : ApproveAttemptEnv) (rc : Nat) (e : JsError),
      env.feeData = .error e →
      (runApproveAttemptTrace env rc).result = .error e ∧
      (runApproveAttemptTrace env rc).submitted = false) := by
  refine ⟨fun p => rfl, fun b => rfl, ?_, ?_⟩
  · intro env tx rc c e h1 h2
    constructor <;> simp [runSwapAttemptTrace, h1, h2]
  · intro env rc e h
    constructor <;> simp [runApproveAttemptTrace, h]

/-- C6 witness: the amended statement instantiated on concrete fee data
with absent fields and on the throwing fee oracles `envC6`/`aenvC6`. -/
theorem c6_fee_fallback_witness :
    feeBase ⟨none, some 5⟩ = 0 ∧
    feePriority ⟨some 5, none⟩ = FALLBACK_PRIORITY_FEE ∧
    ((runSwapAttemptTrace envC6 txW 0).result = .error feeOracleDownW ∧
      (runSwapAttemptTrace envC6 txW 0).submitted = false) ∧
    ((runApproveAttemptTrace aenvC6 0).result = .error feeOracleDownW ∧
      (runApproveAttemptTrace aenvC6 0).submitted = false) :=
  ⟨c6_fee_fallback.1 (some 5), c6_fee_fallback.2.1 (some 5),
    c6_fee_fallback.2.2.1 envC6 txW 0 0 feeOracleDownW rfl rfl,
    c6_fee_fallback.2.2.2 aenvC6 0 feeOracleDownW rfl⟩

/-- C7: on every attempt that builds a transaction, the nonce equals the
transaction count fetched during that attempt plus the attempt index; and
for non-decreasing fetched counts the built nonces are non-decreasing (in
fact strictly increasing) across consecutive attempts. -/
theorem c7_nonce_equals_count_plus_attempt (envs : Nat → AttemptEnv) (tx : TxData)
    (cfg : ChainConfig) :
    (∀ tr, tr ∈ (executeEvmTransaction envs tx cfg).fst → ∀ t, tr.builtTx = some t →
      ∃ c, (envs tr.idx).txCount = .ok c ∧ t.nonce = c + tr.idx) ∧
    (∀ (tx1 tx2 : TxData) (fd fd' : FeeData) (c c' i : Nat), c ≤ c' →
      (buildSwapTransaction tx1 c i fd).nonce ≤
        (buildSwapTransaction tx2 c' (i + 1) fd').nonce) := by
  constructor
  · intro tr htr t ht
    simp only [executeEvmTransaction] at htr
    have hmem := goSwap_mem envs tx (effectiveMaxRetries cfg.maxRetries)
      (effectiveMaxRetries cfg.maxRetries) 0 tr htr
    rw [hmem] at ht
    obtain ⟨c, fd, hc, _, hb⟩ := runSwapAttemptTrace_builtTx _ tx _ t ht
    exact ⟨c, hc, by rw [hb]; rfl⟩
  · intro tx1 tx2 fd fd' c c' i h
    simp only [buildSwapTransaction]
    omega

/-- C7 witness: the nonce statement instantiated on the first trace of the
`envsC1` run (count 41, attempt 0) and on concrete counts 3 ≤ 5. -/
theorem c7_nonce_witness :
    (∃ c, (envsC1 trC1.idx).txCount = .ok c ∧ tC1.nonce = c + trC1.idx) ∧
    (buildSwapTransaction txW 3 0 fdLo).nonce ≤
      (buildSwapTransaction txW 5 1 fdHi).nonce := by
  constructor
  · exact (c7_nonce_equals_count_plus_attempt envsC1 txW cfgW).1 trC1 (List.Mem.head _) tC1 rfl
  · exact (c7_nonce_equals_count_plus_attempt envsC1 txW cfgW).2 txW txW fdLo fdHi 3 5 0
      (by decide)

/-- C8 (counterexample): after all retries fail retryably, the flow fails
with the last attempt's raw underlying error itself — in the `envsC8` run,
the error with message `"send failure on attempt 2"` — not with a distinct
retries-exhausted error (the code's `"Max retries exceeded"` message is a
different value and is never produced). -/
theorem c8_counterexample :
    (executeEvmTransaction envsC8 txW cfgW).snd = .error ⟨.other, sendFailMsg2⟩ ∧
    (⟨ErrCode.other, sendFailMsg2⟩ : JsError) ≠ ⟨ErrCode.other, maxRetriesMsg⟩ :=
  ⟨rfl, by decide⟩

/-- C8 (amended): when every attempt fails retryably, both retry loops
rethrow the last attempt's underlying error unchanged (no wrapper error is
created); since the effective `maxRetries` is always at least 1, the
loop-exit `"Max retries exceeded"` error is unreachable. -/
theorem c8_last_error_rethrown (envs : Nat → AttemptEnv) (aenvs : Nat → ApproveAttemptEnv)
    (tx : TxData) (cfg : ChainConfig) (es es2 : Nat → JsError) :
    ((∀ k, k < effectiveMaxRetries cfg.maxRetries →
        (runSwapAttemptTrace (envs k) tx k).result = .error (es k) ∧
          (es k).code = ErrCode.other) →
      (executeEvmTransaction envs tx cfg).snd =
        .error (es (effectiveMaxRetries cfg.maxRetries - 1))) ∧
    ((∀ k, k < effectiveMaxRetries cfg.maxRetries →
        (runApproveAttemptTrace (aenvs k) k).result = .error (es2 k)) →
      (executeApprovalTransaction aenvs cfg).snd =
        .error (es2 (effectiveMaxRetries cfg.maxRetries - 1))) ∧
    1 ≤ effectiveMaxRetries cfg.maxRetries := by
  refine ⟨?_, ?_, one_le_effectiveMaxRetries cfg.maxRetries⟩
  · intro hall
    simp only [executeEvmTransaction]
    exact goSwap_all_retryable envs tx es (effectiveMaxRetries cfg.maxRetries) 0
      (effectiveMaxRetries cfg.maxRetries) (by omega)
      (one_le_effectiveMaxRetries cfg.maxRetries) hall
  · intro hall
    simp only [executeApprovalTransaction]
    exact goApprove_all_fail aenvs es2 (effectiveMaxRetries cfg.maxRetries) 0
      (effectiveMaxRetries cfg.maxRetries) (by omega)
      (one_le_effectiveMaxRetries cfg.maxRetries) hall

/-- C8 witness: the amended statement instantiated on the all-failing runs
`envsC8` and `aenvsC8` with distinct per-attempt errors. -/
theorem c8_last_error_rethrown_witness :
    (executeEvmTransaction envsC8 txW cfgW).snd =
      .error (esC8 (effectiveMaxRetries cfgW.maxRetries - 1)) ∧
    (executeApprovalTransaction aenvsC8 cfgW).snd =
      .error (esC8 (effectiveMaxRetries cfgW.maxRetries - 1)) := by
  constructor
  · exact (c8_last_error_rethrown envsC8 aenvsC8 txW cfgW esC8 esC8).1
      (fun k hk => ⟨rfl, rfl⟩)
  · exact (c8_last_error_rethrown envsC8 aenvsC8 txW cfgW esC8 esC8).2.1
      (fun k hk => rfl)

/-- C9: assuming the provider answers receipt polls consistently (a receipt
returned for a queried hash carries that hash), every successful
`executeSwap` returns a result whose `transactionId` equals the hash
returned by `sendTransaction` on the confirmed (final) attempt, and whose
`explorerUrl` is the configured explorer base, a slash, and that hash. -/
theorem c9_result_roundtrip (envs : Nat → AttemptEnv) (swapData : SwapResponseData)
    (cfg : ChainConfig) (res : SwapResult) :
    (∀ k hs i r, ((envs k).polls hs i).receipt = some r → r.transactionHash = hs) →
    (executeSwap envs swapData cfg).snd = .ok res →
    res.success = true ∧
    ∃ tr hs, (executeSwap envs swapData cfg).fst.getLast? = some tr ∧
      tr.sentHash = some hs ∧ res.transactionId = hs ∧
      res.explorerUrl = cfg.explorer ++ "/" ++ hs := by
  intro hcons hok
  rcases hq : (swapData.data.getD []).head? with _ | quoteData
  · simp [executeSwap, hq] at hok
  · rcases hr : quoteData.routerResult with _ | routerResult
    · simp [executeSwap, hq, hr] at hok
    · rcases ht : quoteData.tx with _ | tx
      · simp [executeSwap, hq, hr, ht] at hok
      · simp only [executeSwap, hq, hr, ht] at hok ⊢
        obtain ⟨receipt, hrec, hres⟩ := except_map_ok _ _ _ hok
        obtain ⟨tr, hlast, htr⟩ := goSwap_last_ok envs tx (effectiveMaxRetries cfg.maxRetries)
          (effectiveMaxRetries cfg.maxRetries) 0 receipt
          (by simpa only [executeEvmTransaction] using hrec)
        have hmem : tr ∈ (goSwap envs tx (effectiveMaxRetries cfg.maxRetries) 0
            (effectiveMaxRetries cfg.maxRetries)).fst :=
          List.mem_of_mem_getLast? hlast
        have hform := goSwap_mem envs tx (effectiveMaxRetries cfg.maxRetries)
          (effectiveMaxRetries cfg.maxRetries) 0 tr hmem
        rw [hform] at htr
        obtain ⟨hs, hsent, i, hpoll⟩ := runSwapAttemptTrace_ok _ tx _ receipt htr
        have hhash : receipt.transactionHash = hs := hcons tr.idx hs i receipt hpoll
        subst hres
        refine ⟨rfl, tr, hs, ?_, ?_, ?_, ?_⟩
        · simpa only [executeEvmTransaction] using hlast
        · rw [hform]
          exact hsent
        · simp only [formatSwapResult, hhash]
        · simp only [formatSwapResult, hhash]

/-- C9 witness: the round-trip statement instantiated on the successful
`envsC9` run, whose wallet returns `hashW` and whose provider reports a
receipt carrying the queried hash. -/
theorem c9_result_roundtrip_witness :
    resC9.success = true ∧
    ∃ tr hs, (executeSwap envsC9 swapW cfgW).fst.getLast? = some tr ∧
      tr.sentHash = some hs ∧ resC9.transactionId = hs ∧
      resC9.explorerUrl = cfgW.explorer ++ "/" ++ hs :=
  c9_result_roundtrip envsC9 swapW cfgW resC9
    (by intro k hs i r hr; injection hr with h; rw [← h]) rfl
